import Mathlib

/-!
Shallow embedding of `src/INVASE.py` (class `INVASE`): the custom
policy-gradient loss `my_loss`, the Bernoulli mask sampler `Sample_M`,
the batch-size computation and index sampling of `__init__`/`train`,
one training step of `train`, and the attribute accesses made by the
inference methods `output` and `get_prediction`.

Real-valued tensors are embedded as functions `Fin n → Fin m → ℝ`
(loss computations, where `tf.log` is the real logarithm) or
`Fin n → Fin m → ℚ` (exact arithmetic of the training-step data flow,
where no transcendental function occurs).  `tf.reduce_sum(·, axis=1)`
becomes a `Finset.sum` over columns, `tf.reduce_mean` a sum divided by
the cast dimension.
-/

namespace INVASE

/-- A 2-D numeric array with `n` rows and `m` columns. -/
abbrev Mat (n m : ℕ) (α : Type) := Fin n → Fin m → α

/-- Hyper-parameter for the number of selected features: `self.tau = 0.1`
(line 41 of `INVASE.py`). -/
def tau : ℝ := 0.1

/-- Column slice `y_true[:, :d]`: the selection probabilities smuggled into
the composite target (line 74). -/
def sel_prob (n d : ℕ) (y_true : Mat n (d + 6) ℝ) : Mat n d ℝ :=
  fun i j => y_true i ⟨j, by omega⟩

/-- Column slice `y_true[:, d:(d+2)]`: the predictor output (line 76). -/
def dis_prob (n d : ℕ) (y_true : Mat n (d + 6) ℝ) : Mat n 2 ℝ :=
  fun i c => y_true i ⟨d + c, by omega⟩

/-- Column slice `y_true[:, (d+2):(d+4)]`: the baseline output (line 78). -/
def val_prob (n d : ℕ) (y_true : Mat n (d + 6) ℝ) : Mat n 2 ℝ :=
  fun i c => y_true i ⟨d + 2 + c, by omega⟩

/-- Column slice `y_true[:, (d+4):]`: the ground-truth one-hot label
(line 80); for a composite target of width `d+6` this is 2 columns wide. -/
def y_final (n d : ℕ) (y_true : Mat n (d + 6) ℝ) : Mat n 2 ℝ :=
  fun i c => y_true i ⟨d + 4 + c, by omega⟩

/-- Reward of the actor network, line 83:
`Reward1 = tf.reduce_sum(y_final * tf.log(dis_prob + 1e-8), axis=1)`
-/
noncomputable def Reward1 (n d : ℕ) (y_true : Mat n (d + 6) ℝ) : Fin n → ℝ :=
  fun i => ∑ c, y_final n d y_true i c * Real.log (dis_prob n d y_true i c + 1e-8)

/-- Reward of the actor network, line 86:
`Reward2 = tf.reduce_sum(y_final * tf.log(val_prob + 1e-8), axis=1)`
-/
noncomputable def Reward2 (n d : ℕ) (y_true : Mat n (d + 6) ℝ) : Fin n → ℝ :=
  fun i => ∑ c, y_final n d y_true i c * Real.log (val_prob n d y_true i c + 1e-8)

/-- Reward difference, line 89: `Reward = Reward1 - Reward2`. -/
noncomputable def Reward (n d : ℕ) (y_true : Mat n (d + 6) ℝ) : Fin n → ℝ :=
  fun i => Reward1 n d y_true i - Reward2 n d y_true i

/-- The per-example policy-gradient surrogate `loss1` (line 92):
`Reward * reduce_sum(sel_prob * log(y_pred+1e-8)
+ (1-sel_prob) * log(1-y_pred+1e-8), axis=1) - tau * reduce_mean(y_pred, axis=1)`. -/
noncomputable def loss1 (n d : ℕ) (y_true : Mat n (d + 6) ℝ)
    (y_pred : Mat n d ℝ) : Fin n → ℝ :=
  fun i =>
    Reward n d y_true i *
      (∑ j, (sel_prob n d y_true i j * Real.log (y_pred i j + 1e-8)
        + (1 - sel_prob n d y_true i j) * Real.log (1 - y_pred i j + 1e-8)))
    - tau * ((∑ j, y_pred i j) / (d : ℝ))

/-- Custom loss `INVASE.my_loss` (lines 67-97): `loss = tf.reduce_mean(-loss1)`. -/
noncomputable def my_loss (n d : ℕ) (y_true : Mat n (d + 6) ℝ)
    (y_pred : Mat n d ℝ) : ℝ :=
  (∑ i, -loss1 n d y_true y_pred i) / (n : ℝ)

end INVASE

open INVASE in
/-- C1: `my_loss` returns the negative mean over examples of
`reward[i] * Σ_j [sel_prob[i,j]·log(y_pred[i,j]+1e-8)
+ (1-sel_prob[i,j])·log(1-y_pred[i,j]+1e-8)] - 0.1 · mean_j y_pred[i,j]`,
where `reward[i] = Σ_c y_final[i,c]·log(dis_prob[i,c]+1e-8)
- Σ_c y_final[i,c]·log(val_prob[i,c]+1e-8)` and the four constituents are
the column slices `[0,d)`, `[d,d+2)`, `[d+2,d+4)`, `[d+4,d+6)` of the
composite target.  Proved for every real-valued target and prediction
matrix, in particular for those whose probability entries lie in `[0,1]`. -/
theorem C1_my_loss_formula (n d : ℕ) (y_true : Mat n (d + 6) ℝ)
    (y_pred : Mat n d ℝ) :
    my_loss n d y_true y_pred =
      -((∑ i : Fin n,
          (((∑ c : Fin 2, y_final n d y_true i c * Real.log (dis_prob n d y_true i c + 1e-8))
            - (∑ c : Fin 2, y_final n d y_true i c * Real.log (val_prob n d y_true i c + 1e-8))) *
            (∑ j : Fin d, (sel_prob n d y_true i j * Real.log (y_pred i j + 1e-8)
              + (1 - sel_prob n d y_true i j) * Real.log (1 - y_pred i j + 1e-8)))
          - 0.1 * ((∑ j : Fin d, y_pred i j) / (d : ℝ)))) / (n : ℝ)) := by
  unfold my_loss loss1 Reward Reward1 Reward2 tau
  rw [← neg_div, ← Finset.sum_neg_distrib]

open INVASE in
/-- C6: `my_loss` depends on the predictor-derived `Reward1` and the
baseline-derived `Reward2` only through their difference: for two
composite targets with identical `sel_prob` and `y_final` slices whose
`dis_prob`/`val_prob` perturbation preserves `Reward1 - Reward2` on every
example, the loss on the same selector output is identical. -/
theorem C6_loss_depends_only_on_reward_difference (n d : ℕ)
    (y_true y_true' : Mat n (d + 6) ℝ) (y_pred : Mat n d ℝ)
    (hsel : ∀ i j, sel_prob n d y_true i j = sel_prob n d y_true' i j)
    (hfin : ∀ i c, y_final n d y_true i c = y_final n d y_true' i c)
    (hrew : ∀ i, Reward1 n d y_true i - Reward2 n d y_true i
      = Reward1 n d y_true' i - Reward2 n d y_true' i) :
    my_loss n d y_true y_pred = my_loss n d y_true' y_pred := by
  unfold my_loss loss1 Reward
  congr 1
  refine Finset.sum_congr rfl (fun i _ => ?_)
  rw [hrew i]
  congr 1
  congr 1
  congr 1
  exact Finset.sum_congr rfl (fun j _ => by rw [hsel i j])

namespace INVASE

/-- A concrete composite target used to witness C6: one example
(`n = 1`), one feature (`d = 1`), so 7 columns; the `y_final` slice
(columns 5 and 6) is zero and the probability columns hold `1/2`. -/
noncomputable def wit6_y_true : Mat 1 7 ℝ :=
  fun _ j => if (j : ℕ) ≤ 4 then (1 : ℝ) / 2 else 0

/-- A second composite target for the C6 witness: same `sel_prob` column
and zero `y_final` slice, but different `dis_prob` and `val_prob`
columns (both `1/3`), so the reward difference `0 - 0` is preserved. -/
noncomputable def wit6_y_true' : Mat 1 7 ℝ :=
  fun _ j => if (j : ℕ) = 0 then (1 : ℝ) / 2
    else if (j : ℕ) ≤ 4 then (1 : ℝ) / 3 else 0

/-- The selector output used by the C6 witness. -/
noncomputable def wit6_y_pred : Mat 1 1 ℝ := fun _ _ => (1 : ℝ) / 2

end INVASE

open INVASE in
/-- Witness for C6: two concrete composite targets that differ in their
`dis_prob`/`val_prob` columns yet, having zero `y_final` slices, preserve
the per-example reward difference, give the same loss. -/
theorem C6_witness :
    my_loss 1 1 wit6_y_true wit6_y_pred = my_loss 1 1 wit6_y_true' wit6_y_pred :=
  C6_loss_depends_only_on_reward_difference 1 1 wit6_y_true wit6_y_true' wit6_y_pred
    (by intro i j; fin_cases i; fin_cases j; simp [sel_prob, wit6_y_true, wit6_y_true'])
    (by intro i c; fin_cases i; fin_cases c <;>
      simp [y_final, wit6_y_true, wit6_y_true'])
    (by intro i
        have h1 : ∀ c : Fin 2, y_final 1 1 wit6_y_true i c = 0 := by
          intro c; fin_cases c <;> simp [y_final, wit6_y_true]
        have h2 : ∀ c : Fin 2, y_final 1 1 wit6_y_true' i c = 0 := by
          intro c; fin_cases c <;> simp [y_final, wit6_y_true']
        simp [Reward1, Reward2, h1, h2])

open INVASE in
/-- C7: when every probability entry referenced by `my_loss` lies strictly
inside `(1e-8, 1-1e-8)`, each of the four families of logarithm arguments
appearing in the loss (`dis_prob + 1e-8`, `val_prob + 1e-8`,
`y_pred + 1e-8`, `1 - y_pred + 1e-8`) is strictly positive; in this
real-valued embedding the loss is then a well-defined (finite) real
number, `Real.log` being total and finite on positive arguments. -/
theorem C7_log_arguments_positive (n d : ℕ) (y_true : Mat n (d + 6) ℝ)
    (y_pred : Mat n d ℝ)
    (hdis : ∀ i c, 1e-8 < dis_prob n d y_true i c ∧ dis_prob n d y_true i c < 1 - 1e-8)
    (hval : ∀ i c, 1e-8 < val_prob n d y_true i c ∧ val_prob n d y_true i c < 1 - 1e-8)
    (hpred : ∀ i j, 1e-8 < y_pred i j ∧ y_pred i j < 1 - 1e-8) :
    (∀ i c, 0 < dis_prob n d y_true i c + 1e-8) ∧
    (∀ i c, 0 < val_prob n d y_true i c + 1e-8) ∧
    (∀ i j, 0 < y_pred i j + 1e-8) ∧
    (∀ i j, 0 < 1 - y_pred i j + 1e-8) := by
  refine ⟨fun i c => ?_, fun i c => ?_, fun i j => ?_, fun i j => ?_⟩
  · have h := (hdis i c).1; norm_num at h ⊢; linarith
  · have h := (hval i c).1; norm_num at h ⊢; linarith
  · have h := (hpred i j).1; norm_num at h ⊢; linarith
  · have h := (hpred i j).2; norm_num at h ⊢; linarith

namespace INVASE

/-- A concrete composite target for the C7 witness: all probability
columns hold `1/2` (strictly inside `(1e-8, 1-1e-8)`); the label columns
hold `0` and `1`. -/
noncomputable def wit7_y_true : Mat 1 7 ℝ :=
  fun _ j => if (j : ℕ) ≤ 4 then (1 : ℝ) / 2 else if (j : ℕ) = 5 then 0 else 1

/-- The selector output for the C7 witness. -/
noncomputable def wit7_y_pred : Mat 1 1 ℝ := fun _ _ => (1 : ℝ) / 2

end INVASE

open INVASE in
/-- Witness for C7: at the concrete matrices above every hypothesis holds
and every logarithm argument is strictly positive. -/
theorem C7_witness :
    (∀ i c, 0 < dis_prob 1 1 wit7_y_true i c + 1e-8) ∧
    (∀ i c, 0 < val_prob 1 1 wit7_y_true i c + 1e-8) ∧
    (∀ i j, 0 < wit7_y_pred i j + 1e-8) ∧
    (∀ i j, 0 < 1 - wit7_y_pred i j + 1e-8) :=
  C7_log_arguments_positive 1 1 wit7_y_true wit7_y_pred
    (by intro i c; fin_cases i; fin_cases c <;>
      constructor <;> simp [dis_prob, wit7_y_true] <;> norm_num)
    (by intro i c; fin_cases i; fin_cases c <;>
      constructor <;> simp [val_prob, wit7_y_true] <;> norm_num)
    (by intro i j; constructor <;> simp [wit7_y_pred] <;> norm_num)

namespace INVASE

/-- Generic column slice `[0, d)` of an `n × (d+6)` array (line 74),
usable at any scalar type (the training step works with exact rationals,
the loss with reals). -/
def slice_sel (n d : ℕ) {α : Type} (y : Mat n (d + 6) α) : Mat n d α :=
  fun i j => y i ⟨j, by omega⟩

/-- Generic column slice `[d, d+2)` (line 76). -/
def slice_dis (n d : ℕ) {α : Type} (y : Mat n (d + 6) α) : Mat n 2 α :=
  fun i c => y i ⟨d + c, by omega⟩

/-- Generic column slice `[d+2, d+4)` (line 78). -/
def slice_val (n d : ℕ) {α : Type} (y : Mat n (d + 6) α) : Mat n 2 α :=
  fun i c => y i ⟨d + 2 + c, by omega⟩

/-- Generic column slice `[d+4, d+6)` (line 80). -/
def slice_fin (n d : ℕ) {α : Type} (y : Mat n (d + 6) α) : Mat n 2 α :=
  fun i c => y i ⟨d + 4 + c, by omega⟩

/-- Composite-target assembly
`np.concatenate((sel_prob, dis_prob, val_prob, y_batch), axis=1)`
(line 176): per-example concatenation of the selection probabilities
(`d` columns), the predictor output (2 columns), the baseline output
(2 columns) and the true one-hot label (2 columns). -/
def concat4 (n d : ℕ) {α : Type} (a : Mat n d α) (b c e : Mat n 2 α) :
    Mat n (d + 6) α :=
  fun i j =>
    if h1 : (j : ℕ) < d then a i ⟨j, h1⟩
    else if h2 : (j : ℕ) < d + 2 then b i ⟨(j : ℕ) - d, by omega⟩
    else if h3 : (j : ℕ) < d + 4 then c i ⟨(j : ℕ) - (d + 2), by omega⟩
    else e i ⟨(j : ℕ) - (d + 4), by omega⟩

/-- Slicing columns `[0, d)` out of the concatenation recovers its first
block. -/
theorem slice_sel_concat4 (n d : ℕ) {α : Type}
    (a : Mat n d α) (b c e : Mat n 2 α) :
    slice_sel n d (concat4 n d a b c e) = a := by
  funext i k
  simp only [slice_sel, concat4]
  rw [dif_pos k.isLt]

/-- Slicing columns `[d, d+2)` out of the concatenation recovers its
second block. -/
theorem slice_dis_concat4 (n d : ℕ) {α : Type}
    (a : Mat n d α) (b c e : Mat n 2 α) :
    slice_dis n d (concat4 n d a b c e) = b := by
  funext i k
  simp only [slice_dis, concat4]
  have hk : (k : ℕ) < 2 := k.isLt
  rw [dif_neg (by omega), dif_pos (by omega)]
  congr 1
  exact Fin.ext (by simp)

/-- Slicing columns `[d+2, d+4)` out of the concatenation recovers its
third block. -/
theorem slice_val_concat4 (n d : ℕ) {α : Type}
    (a : Mat n d α) (b c e : Mat n 2 α) :
    slice_val n d (concat4 n d a b c e) = c := by
  funext i k
  simp only [slice_val, concat4]
  have hk : (k : ℕ) < 2 := k.isLt
  rw [dif_neg (by omega), dif_neg (by omega), dif_pos (by omega)]
  congr 1
  exact Fin.ext (by simp)

/-- Slicing columns `[d+4, d+6)` out of the concatenation recovers its
fourth block. -/
theorem slice_fin_concat4 (n d : ℕ) {α : Type}
    (a : Mat n d α) (b c e : Mat n 2 α) :
    slice_fin n d (concat4 n d a b c e) = e := by
  funext i k
  simp only [slice_fin, concat4]
  have hk : (k : ℕ) < 2 := k.isLt
  rw [dif_neg (by omega), dif_neg (by omega), dif_neg (by omega)]
  congr 1
  exact Fin.ext (by simp)

end INVASE

open INVASE in
/-- C4: the composite target assembled for the selector update is the
per-example concatenation, in this order, of selection probabilities
(`d` columns), predictor output (2 columns), baseline output (2 columns)
and true one-hot label (2 columns), and the column ranges sliced out by
`my_loss` (`[0,d)`, `[d,d+2)`, `[d+2,d+4)`, `[d+4,d+6)`) recover exactly
those four constituents. -/
theorem C4_concat_slices_roundtrip (n d : ℕ) {α : Type}
    (a : Mat n d α) (b c e : Mat n 2 α) :
    slice_sel n d (concat4 n d a b c e) = a ∧
    slice_dis n d (concat4 n d a b c e) = b ∧
    slice_val n d (concat4 n d a b c e) = c ∧
    slice_fin n d (concat4 n d a b c e) = e :=
  ⟨slice_sel_concat4 n d a b c e, slice_dis_concat4 n d a b c e,
    slice_val_concat4 n d a b c e, slice_fin_concat4 n d a b c e⟩

namespace INVASE

/-- Mask sampler `INVASE.Sample_M` (lines 130-139): entrywise Bernoulli sampling
`np.random.binomial(1, gen_prob, (n, d))`.  The random source is embedded
as a matrix `u` of draws uniform on `[0, 1)`; an entry samples to `1`
exactly when its uniform draw falls below its success probability, which
is the standard inverse-transform model of a Bernoulli trial.  The
output shape `(n, d)` equals the input shape by type. -/
def Sample_M (n d : ℕ) (gen_prob : Mat n d ℚ) (u : Mat n d ℚ) : Mat n d ℚ :=
  fun i j => if u i j < gen_prob i j then 1 else 0

end INVASE

open INVASE in
/-- C8: for every selection-probability matrix with entries in `[0,1]`
and every outcome of the random source (uniform draws in `[0,1)`),
`Sample_M` returns a matrix of the same shape (by type) with every entry
in `{0,1}`; on an all-zeros input the result is deterministically all
zeros, and on an all-ones input deterministically all ones. -/
theorem C8_sample_M_binary (n d : ℕ) (gen_prob u : Mat n d ℚ)
    (hp : ∀ i j, 0 ≤ gen_prob i j ∧ gen_prob i j ≤ 1)
    (hu : ∀ i j, 0 ≤ u i j ∧ u i j < 1) :
    (∀ i j, Sample_M n d gen_prob u i j = 0 ∨ Sample_M n d gen_prob u i j = 1) ∧
    ((∀ i j, gen_prob i j = 0) → ∀ i j, Sample_M n d gen_prob u i j = 0) ∧
    ((∀ i j, gen_prob i j = 1) → ∀ i j, Sample_M n d gen_prob u i j = 1) := by
  refine ⟨fun i j => ?_, fun h0 i j => ?_, fun h1 i j => ?_⟩
  · unfold Sample_M
    split
    · exact Or.inr rfl
    · exact Or.inl rfl
  · unfold Sample_M
    rw [h0 i j, if_neg (not_lt.mpr (hu i j).1)]
  · unfold Sample_M
    rw [h1 i j, if_pos (hu i j).2]

open INVASE in
/-- Witness for C8: a concrete 1×1 probability matrix with entry `1/2`
and a concrete uniform draw `0` satisfy the hypotheses, and the sampled
mask is binary with the two degenerate cases deterministic. -/
theorem C8_witness :
    (∀ i j, Sample_M 1 1 (fun _ _ => (1 : ℚ)/2) (fun _ _ => 0) i j = 0 ∨
      Sample_M 1 1 (fun _ _ => (1 : ℚ)/2) (fun _ _ => 0) i j = 1) ∧
    ((∀ i j, ((fun _ _ => (1 : ℚ)/2) : Mat 1 1 ℚ) i j = 0) →
      ∀ i j, Sample_M 1 1 (fun _ _ => (1 : ℚ)/2) (fun _ _ => 0) i j = 0) ∧
    ((∀ i j, ((fun _ _ => (1 : ℚ)/2) : Mat 1 1 ℚ) i j = 1) →
      ∀ i j, Sample_M 1 1 (fun _ _ => (1 : ℚ)/2) (fun _ _ => 0) i j = 1) :=
  C8_sample_M_binary 1 1 (fun _ _ => (1 : ℚ)/2) (fun _ _ => 0)
    (fun _ _ => by norm_num) (fun _ _ => by norm_num)

namespace INVASE

/-- Batch size fixed at construction, line 39:
`self.batch_size = min(1000, x_train.shape[0])`. -/
def batch_size (n_train : ℕ) : ℕ := min 1000 n_train

/-- Model of `np.random.randint(0, N, size)` (line 149): draws `size` iid indices
uniform on `[0, N)`.  The library's random source is embedded as a raw
stream `u` of naturals, one per position; the `k`-th drawn index is the
`k`-th raw value reduced modulo `N`, which is uniform on `[0, N)`
whenever the raw value is uniform on any span that is a multiple of `N`,
and depends on no other position's raw value. -/
def randint (N size : ℕ) (u : Fin size → ℕ) : Fin size → ℕ :=
  fun k => u k % N

/-- Helper for C9: among any `m` consecutive full periods of the modulus,
every residue below `n` is drawn exactly `m` times (uniformity of the
reduced draw). -/
theorem randint_uniform_count (n m v : ℕ) (hn : 0 < n) (hv : v < n) :
    ((Finset.range (m * n)).filter (fun r => r % n = v)).card = m := by
  have hfilter : (Finset.range (m * n)).filter (fun r => r % n = v)
      = (Finset.range (m * n)).filter (fun r => r ≡ v [MOD n]) :=
    Finset.filter_congr (fun x _ => by rw [Nat.ModEq, Nat.mod_eq_of_lt hv])
  rw [hfilter, ← Nat.count_eq_card_filter_range, Nat.count_modEq_card _ hn,
    Nat.mul_div_cancel _ hn, Nat.mul_mod_left]
  simp

end INVASE

open INVASE in
/-- C9: the batch size fixed at construction is `min(1000, n_train)` and
never exceeds the dataset size; each training step draws exactly
`batch_size` indices (the domain of the draw), every drawn index lies in
`[0, n_train)`, each position's draw is uniform (over any raw-source span
that is a whole number of periods, every index value is realized equally
often) and depends only on its own raw-source position (independence),
and every combination of indices — repetitions included — is realizable
(sampling with replacement). -/
theorem C9_batch_size_and_sampling (n_train : ℕ) (hpos : 0 < n_train)
    (u : Fin (batch_size n_train) → ℕ) :
    batch_size n_train = min 1000 n_train ∧
    batch_size n_train ≤ n_train ∧
    (∀ k, randint n_train (batch_size n_train) u k < n_train) ∧
    (∀ (m v : ℕ), v < n_train →
      ((Finset.range (m * n_train)).filter
        (fun r => randint n_train (batch_size n_train) (fun _ => r) ⟨0, by
          simp [batch_size]; omega⟩ = v)).card = m) ∧
    (∀ (u' : Fin (batch_size n_train) → ℕ) (k : Fin (batch_size n_train)),
      u k = u' k →
      randint n_train (batch_size n_train) u k
        = randint n_train (batch_size n_train) u' k) ∧
    (∀ f : Fin (batch_size n_train) → ℕ, (∀ k, f k < n_train) →
      ∃ w : Fin (batch_size n_train) → ℕ,
        ∀ k, randint n_train (batch_size n_train) w k = f k) := by
  refine ⟨rfl, min_le_right _ _, fun k => Nat.mod_lt _ hpos, ?_, ?_, ?_⟩
  · intro m v hv
    have h := randint_uniform_count n_train m v hpos hv
    simpa [randint] using h
  · intro u' k hk
    simp [randint, hk]
  · intro f hf
    exact ⟨f, fun k => Nat.mod_eq_of_lt (hf k)⟩

open INVASE in
/-- Witness for C9: the claim instantiated at a training set of 5
examples and the identity raw source. -/
theorem C9_witness :
    0 < 5 ∧
    (batch_size 5 = min 1000 5 ∧
    batch_size 5 ≤ 5 ∧
    (∀ k, randint 5 (batch_size 5) (fun k => (k : ℕ)) k < 5) ∧
    (∀ (m v : ℕ), v < 5 →
      ((Finset.range (m * 5)).filter
        (fun r => randint 5 (batch_size 5) (fun _ => r) ⟨0, by
          simp [batch_size]⟩ = v)).card = m) ∧
    (∀ (u' : Fin (batch_size 5) → ℕ) (k : Fin (batch_size 5)),
      (fun k : Fin (batch_size 5) => (k : ℕ)) k = u' k →
      randint 5 (batch_size 5) (fun k => (k : ℕ)) k
        = randint 5 (batch_size 5) u' k) ∧
    (∀ f : Fin (batch_size 5) → ℕ, (∀ k, f k < 5) →
      ∃ w : Fin (batch_size 5) → ℕ,
        ∀ k, randint 5 (batch_size 5) w k = f k)) :=
  ⟨by decide, C9_batch_size_and_sampling 5 (by decide) (fun k => (k : ℕ))⟩

namespace INVASE

/-- The attribute names bound on an INVASE instance by `__init__`
(lines 36-64): scalar hyper-parameters and the three networks
`self.predictor`, `self.selector`, `self.baseline`.  No other attribute
is ever assigned on `self` anywhere in the class. -/
def INVASE_init_attrs : List String :=
  ["is_logging_enabled", "batch_size", "epochs", "tau", "input_shape",
   "activation", "predictor", "selector", "baseline"]

/-- Python attribute resolution on an instance: the attribute name when
it is bound, otherwise the `AttributeError` that `self.<name>` raises. -/
def resolve_attr (attrs : List String) (name : String) : Except String String :=
  if name ∈ attrs then Except.ok name else Except.error ("AttributeError: " ++ name)

/-- The attribute access performed by `INVASE.output` (line 190):
`self.generator.predict(x_train)` resolves `self.generator` first. -/
def output_attr_access : Except String String :=
  resolve_attr INVASE_init_attrs ("generator")

/-- The attribute accesses performed by `INVASE.get_prediction`
(lines 197 and 199): `self.valfunction.predict(x_train)` and
`self.discriminator.predict([x_train, m_train])`. -/
def get_prediction_attr_accesses : Except String String × Except String String :=
  (resolve_attr INVASE_init_attrs ("valfunction"),
   resolve_attr INVASE_init_attrs ("discriminator"))

end INVASE

open INVASE in
/-- C2 (code bug): `output` dereferences `self.generator`, but `__init__`
binds the selector network under the name `selector` and never binds
`generator`, so the very first operation of `output` raises an
`AttributeError` on every input instead of returning the selector's
selection probabilities. -/
theorem C2_output_raises_attribute_error :
    output_attr_access = Except.error ("AttributeError: generator") ∧
    "generator" ∉ INVASE_init_attrs ∧
    "selector" ∈ INVASE_init_attrs := by
  refine ⟨rfl, by decide, by decide⟩

open INVASE in
/-- C3 (code bug): `get_prediction` dereferences `self.valfunction` and
`self.discriminator`, but `__init__` binds those networks under the
names `baseline` and `predictor` and never binds the former two, so
`get_prediction` raises an `AttributeError` on every input instead of
returning the pair of predictions. -/
theorem C3_get_prediction_raises_attribute_error :
    get_prediction_attr_accesses
      = (Except.error ("AttributeError: valfunction"),
         Except.error ("AttributeError: discriminator")) ∧
    "valfunction" ∉ INVASE_init_attrs ∧
    "discriminator" ∉ INVASE_init_attrs ∧
    "baseline" ∈ INVASE_init_attrs ∧
    "predictor" ∈ INVASE_init_attrs := by
  refine ⟨rfl, by decide, by decide, by decide, by decide⟩

namespace INVASE

/-- The network operations a training step performs, in source order:
a forward query (`.predict`) or a gradient update (`.train_on_batch`)
of the selector, predictor or baseline, recorded with the feature input
it receives. -/
inductive Ev (n d : ℕ) where
  | querySel (input : Mat n d ℚ)
  | updateSel (input : Mat n d ℚ)
  | queryPre (input : Mat n d ℚ)
  | updatePre (input : Mat n d ℚ)
  | queryBas (input : Mat n d ℚ)
  | updateBas (input : Mat n d ℚ)

/-- Whether an event is a forward query of the predictor. -/
def Ev.isQueryPre {n d : ℕ} : Ev n d → Prop
  | .queryPre _ => True
  | _ => False

/-- Whether an event is a gradient update of the predictor. -/
def Ev.isUpdatePre {n d : ℕ} : Ev n d → Prop
  | .updatePre _ => True
  | _ => False

/-- Whether an event is a forward query of the baseline. -/
def Ev.isQueryBas {n d : ℕ} : Ev n d → Prop
  | .queryBas _ => True
  | _ => False

/-- Whether an event is a gradient update of the baseline. -/
def Ev.isUpdateBas {n d : ℕ} : Ev n d → Prop
  | .updateBas _ => True
  | _ => False

/-- The state produced by one iteration of `INVASE.train`'s loop:
the three networks' weights after the step, the ordered trace of network
operations the step performed, and the composite target handed to the
selector update. -/
structure StepResult (n d : ℕ) (SW PW BW : Type) where
  selW : SW
  preW : PW
  basW : BW
  trace : List (Ev n d)
  composite : Mat n (d + 6) ℚ

/-- One iteration of `INVASE.train` (lines 153-179), with the three
networks abstracted by their weight types and query/update functions:
`sel_prob = selector.predict(x_batch)` (line 154),
`sel_mask = Sample_M(sel_prob)` (line 157),
`sel_feat = Multiply()([x_batch, sel_mask])` (line 158),
`dis_prob = predictor.predict(sel_feat)` (line 161),
`predictor.train_on_batch(sel_feat, y_batch)` (line 164),
`val_prob = baseline.predict(x_batch)` (line 169),
`baseline.train_on_batch(x_batch, y_batch)` (line 172),
`y_batch_final = concatenate((sel_prob, dis_prob, val_prob, y_batch))`
(line 176), `selector.train_on_batch(x_batch, y_batch_final)`
(line 179). -/
def train_step (n d : ℕ) {SW PW BW : Type}
    (selPredict : SW → Mat n d ℚ → Mat n d ℚ)
    (selTrain : SW → Mat n d ℚ → Mat n (d + 6) ℚ → SW)
    (prePredict : PW → Mat n d ℚ → Mat n 2 ℚ)
    (preTrain : PW → Mat n d ℚ → Mat n 2 ℚ → PW)
    (basPredict : BW → Mat n d ℚ → Mat n 2 ℚ)
    (basTrain : BW → Mat n d ℚ → Mat n 2 ℚ → BW)
    (sw : SW) (pw : PW) (bw : BW)
    (x_batch : Mat n d ℚ) (y_batch : Mat n 2 ℚ) (u : Mat n d ℚ) :
    StepResult n d SW PW BW :=
  let sp := selPredict sw x_batch
  let sel_mask := Sample_M n d sp u
  let sel_feat : Mat n d ℚ := fun i j => x_batch i j * sel_mask i j
  let dp := prePredict pw sel_feat
  let pw2 := preTrain pw sel_feat y_batch
  let vp := basPredict bw x_batch
  let bw2 := basTrain bw x_batch y_batch
  let y_batch_final := concat4 n d sp dp vp y_batch
  let sw2 := selTrain sw x_batch y_batch_final
  { selW := sw2, preW := pw2, basW := bw2,
    trace := [Ev.querySel x_batch, Ev.queryPre sel_feat, Ev.updatePre sel_feat,
      Ev.queryBas x_batch, Ev.updateBas x_batch, Ev.updateSel x_batch],
    composite := y_batch_final }

/-- The masked feature batch of a training step:
`Multiply()([x_batch, Sample_M(selector.predict(x_batch))])`. -/
def masked_batch (n d : ℕ) {SW : Type}
    (selPredict : SW → Mat n d ℚ → Mat n d ℚ) (sw : SW)
    (x_batch : Mat n d ℚ) (u : Mat n d ℚ) : Mat n d ℚ :=
  fun i j => x_batch i j * Sample_M n d (selPredict sw x_batch) u i j

end INVASE

open INVASE in
/-- C5: in every training step, the predictor-output and baseline-output
blocks of the composite target are the networks' predictions under their
pre-update weights of that same step (`pw` and `bw`, not the returned
`preW`/`basW`); the selector update is the last operation of the step;
and once the predictor (resp. baseline) has been updated, no later
operation of the step queries it again. -/
theorem C5_pre_update_outputs_and_order (n d : ℕ) {SW PW BW : Type}
    (selPredict : SW → Mat n d ℚ → Mat n d ℚ)
    (selTrain : SW → Mat n d ℚ → Mat n (d + 6) ℚ → SW)
    (prePredict : PW → Mat n d ℚ → Mat n 2 ℚ)
    (preTrain : PW → Mat n d ℚ → Mat n 2 ℚ → PW)
    (basPredict : BW → Mat n d ℚ → Mat n 2 ℚ)
    (basTrain : BW → Mat n d ℚ → Mat n 2 ℚ → BW)
    (sw : SW) (pw : PW) (bw : BW)
    (x_batch : Mat n d ℚ) (y_batch : Mat n 2 ℚ) (u : Mat n d ℚ) :
    slice_dis n d (train_step n d selPredict selTrain prePredict preTrain
        basPredict basTrain sw pw bw x_batch y_batch u).composite
      = prePredict pw (masked_batch n d selPredict sw x_batch u) ∧
    slice_val n d (train_step n d selPredict selTrain prePredict preTrain
        basPredict basTrain sw pw bw x_batch y_batch u).composite
      = basPredict bw x_batch ∧
    (train_step n d selPredict selTrain prePredict preTrain
        basPredict basTrain sw pw bw x_batch y_batch u).trace.getLast?
      = some (Ev.updateSel x_batch) ∧
    (train_step n d selPredict selTrain prePredict preTrain
        basPredict basTrain sw pw bw x_batch y_batch u).trace.Pairwise
      (fun e e' => (e.isUpdatePre → ¬ e'.isQueryPre) ∧
        (e.isUpdateBas → ¬ e'.isQueryBas)) := by
  refine ⟨?_, ?_, rfl, ?_⟩
  · exact slice_dis_concat4 n d _ _ _ _
  · exact slice_val_concat4 n d _ _ _ _
  · simp [train_step, List.pairwise_cons, Ev.isQueryPre, Ev.isUpdatePre,
      Ev.isQueryBas, Ev.isUpdateBas]

open INVASE in
/-- C10: in every training step both selector operations — the forward
query producing the selection probabilities and the gradient update —
receive the unmasked feature batch (every selector event in the trace
carries `x_batch` and no other input); the sampled mask is applied only
to the predictor's inputs (every predictor event carries the masked
batch, every baseline event the unmasked one); and the mask's effect
reaches the selector update solely through the predictor-output columns
of the composite target: for two different random sources the composite
targets agree on every column outside `[d, d+2)`. -/
theorem C10_selector_sees_unmasked_batch (n d : ℕ) {SW PW BW : Type}
    (selPredict : SW → Mat n d ℚ → Mat n d ℚ)
    (selTrain : SW → Mat n d ℚ → Mat n (d + 6) ℚ → SW)
    (prePredict : PW → Mat n d ℚ → Mat n 2 ℚ)
    (preTrain : PW → Mat n d ℚ → Mat n 2 ℚ → PW)
    (basPredict : BW → Mat n d ℚ → Mat n 2 ℚ)
    (basTrain : BW → Mat n d ℚ → Mat n 2 ℚ → BW)
    (sw : SW) (pw : PW) (bw : BW)
    (x_batch : Mat n d ℚ) (y_batch : Mat n 2 ℚ) (u u' : Mat n d ℚ) :
    (Ev.querySel x_batch ∈ (train_step n d selPredict selTrain prePredict preTrain
        basPredict basTrain sw pw bw x_batch y_batch u).trace ∧
      Ev.updateSel x_batch ∈ (train_step n d selPredict selTrain prePredict preTrain
        basPredict basTrain sw pw bw x_batch y_batch u).trace ∧
      ∀ x' : Mat n d ℚ,
        (Ev.querySel x' ∈ (train_step n d selPredict selTrain prePredict preTrain
            basPredict basTrain sw pw bw x_batch y_batch u).trace ∨
          Ev.updateSel x' ∈ (train_step n d selPredict selTrain prePredict preTrain
            basPredict basTrain sw pw bw x_batch y_batch u).trace) →
        x' = x_batch) ∧
    (∀ x' : Mat n d ℚ,
        (Ev.queryPre x' ∈ (train_step n d selPredict selTrain prePredict preTrain
            basPredict basTrain sw pw bw x_batch y_batch u).trace ∨
          Ev.updatePre x' ∈ (train_step n d selPredict selTrain prePredict preTrain
            basPredict basTrain sw pw bw x_batch y_batch u).trace) →
        x' = masked_batch n d selPredict sw x_batch u) ∧
    (∀ x' : Mat n d ℚ,
        (Ev.queryBas x' ∈ (train_step n d selPredict selTrain prePredict preTrain
            basPredict basTrain sw pw bw x_batch y_batch u).trace ∨
          Ev.updateBas x' ∈ (train_step n d selPredict selTrain prePredict preTrain
            basPredict basTrain sw pw bw x_batch y_batch u).trace) →
        x' = x_batch) ∧
    (∀ (i : Fin n) (j : Fin (d + 6)), ((j : ℕ) < d ∨ d + 2 ≤ (j : ℕ)) →
      (train_step n d selPredict selTrain prePredict preTrain
          basPredict basTrain sw pw bw x_batch y_batch u).composite i j
        = (train_step n d selPredict selTrain prePredict preTrain
          basPredict basTrain sw pw bw x_batch y_batch u').composite i j) := by
  refine ⟨⟨?_, ?_, ?_⟩, ?_, ?_, ?_⟩
  · simp [train_step]
  · simp [train_step]
  · intro x' hx'
    rcases hx' with h | h <;> simpa [train_step] using h
  · intro x' hx'
    rcases hx' with h | h <;>
      · have h' := h
        simp only [train_step, List.mem_cons, List.not_mem_nil, or_false] at h'
        rcases h' with h' | h' | h' | h' | h' | h' <;>
          first
          | (cases h'; rfl)
          | (exact absurd h' (by simp))
  · intro x' hx'
    rcases hx' with h | h <;> simpa [train_step] using h
  · intro i j hj
    simp only [train_step, concat4]
    rcases hj with hj | hj
    · rw [dif_pos hj, dif_pos hj]
    · by_cases h3 : (j : ℕ) < d + 4
      · rw [dif_neg (by omega), dif_neg (by omega), dif_pos h3,
          dif_neg (by omega), dif_neg (by omega), dif_pos h3]
      · rw [dif_neg (by omega), dif_neg (by omega), dif_neg h3,
          dif_neg (by omega), dif_neg (by omega), dif_neg h3]
